import Mathlib

/-!
Verification of the MARKET.js order-validation and fillable-quantity core.

Shallow embedding conventions:
* `BigNumber` values (arbitrary-precision decimals) are modelled as rationals `ℚ`;
  where the non-finite values of bignumber.js (`NaN`, `±Infinity`) can arise
  (the unguarded division in `RemainingFillableCalculator`), the extended type
  `BigVal` is used.
* Addresses, order hashes and token addresses are opaque `String`s.
* Asynchronous chain reads are modelled by pure environment records
  (`CalcEnv`, `TradeEnv`); the sequence of external calls a computation issues
  is returned alongside its result as a `List Call` trace.
* Promise rejection is modelled by `Except MarketError`.
* For the standardized-contract-name utilities, JavaScript strings are
  modelled as lists of character code points (`List ℕ`).
-/

namespace MarketJS

/-- Modelled from the spec: `constants.NULL_ADDRESS` (the constants module is
not among the provided sources).  The "open taker" sentinel address. -/
def NULL_ADDRESS : String := "0x0000000000000000000000000000000000000000"

/-- Error taxonomy of the SDK (`MarketError` in `src/types`). -/
inductive MarketError where
  | ContractAlreadySettled
  | InvalidTaker
  | OrderExpired
  | OrderFilledOrCancelled
  | BuySellMismatch
  | InvalidSignature
  | UserNotEnabledForContract
  | InsufficientBalanceForTransfer
  | InsufficientAllowanceForTransfer
  | InsufficientCollateralBalance
  | UserHasNoAssociatedPositions
deriving DecidableEq, Repr

/-- Embedding of `Utils.calculateNeededCollateral` (src/src/lib/Utils.ts,
lines 88-112).  `qty.isPositive()` of bignumber.js holds exactly for
non-negative rationals, hence the `0 ≤ qty` branch condition. -/
def calculateNeededCollateral (priceFloor priceCap qtyMultiplier qty price : ℚ) : ℚ :=
  let maxLoss : ℚ :=
    if 0 ≤ qty then
      if price ≤ priceFloor then 0 else price - priceFloor
    else
      if priceCap ≤ price then 0 else priceCap - price
  maxLoss * |qty| * qtyMultiplier

/-- C1: for positive `qty` the needed collateral is
`max 0 (price − priceFloor) · |qty| · qtyMultiplier`, and for negative `qty` it
is `max 0 (priceCap − price) · |qty| · qtyMultiplier`.  The definition is a
pure function, so the "no side effects" part of the claim is witnessed by the
embedding itself. -/
theorem calculateNeededCollateral_maxLoss_formula
    (priceFloor priceCap qtyMultiplier qty price : ℚ) :
    (0 < qty → calculateNeededCollateral priceFloor priceCap qtyMultiplier qty price
        = max 0 (price - priceFloor) * |qty| * qtyMultiplier) ∧
    (qty < 0 → calculateNeededCollateral priceFloor priceCap qtyMultiplier qty price
        = max 0 (priceCap - price) * |qty| * qtyMultiplier) := by
  constructor <;> intro h
  · have hq : 0 ≤ qty := le_of_lt h
    simp only [calculateNeededCollateral, if_pos hq]
    rcases le_or_lt price priceFloor with hle | hlt
    · rw [if_pos hle, max_eq_left (by linarith)]
    · rw [if_neg (not_le.mpr hlt), max_eq_right (by linarith)]
  · have hq : ¬ (0 ≤ qty) := not_le.mpr h
    simp only [calculateNeededCollateral, if_neg hq]
    rcases le_or_lt priceCap price with hle | hlt
    · rw [if_pos hle, max_eq_left (by linarith)]
    · rw [if_neg (not_le.mpr hlt), max_eq_right (by linarith)]

/-- Witness for C1 at concrete inputs: floor 1, cap 10, multiplier 2,
qty 3 (long) and qty -3 (short), price 4. -/
theorem calculateNeededCollateral_maxLoss_formula_witness :
    calculateNeededCollateral 1 10 2 3 4 = max 0 (4 - 1) * |(3 : ℚ)| * 2 ∧
    calculateNeededCollateral 1 10 2 (-3) 4 = max 0 (10 - 4) * |(-3 : ℚ)| * 2 :=
  ⟨(calculateNeededCollateral_maxLoss_formula 1 10 2 3 4).1 (by norm_num),
   (calculateNeededCollateral_maxLoss_formula 1 10 2 (-3) 4).2 (by norm_num)⟩

/-- C8: with non-negative floor, cap, multiplier and price, and the price
between floor and cap, the needed collateral is non-negative for non-negative
qty (and in fact for all qty), and for a fixed sign of qty it is monotonically
non-decreasing in `|qty|`. -/
theorem calculateNeededCollateral_nonneg_monotone
    (priceFloor priceCap qtyMultiplier price : ℚ)
    (hf : 0 ≤ priceFloor) (hc : 0 ≤ priceCap) (hm : 0 ≤ qtyMultiplier)
    (hfp : priceFloor ≤ price) (hpc : price ≤ priceCap) :
    (∀ qty : ℚ, 0 ≤ qty →
      0 ≤ calculateNeededCollateral priceFloor priceCap qtyMultiplier qty price) ∧
    (∀ q₁ q₂ : ℚ, ((0 ≤ q₁) ↔ (0 ≤ q₂)) → |q₁| ≤ |q₂| →
      calculateNeededCollateral priceFloor priceCap qtyMultiplier q₁ price ≤
        calculateNeededCollateral priceFloor priceCap qtyMultiplier q₂ price) := by
  have hmaxLoss : ∀ q : ℚ,
      0 ≤ (if 0 ≤ q then
             if price ≤ priceFloor then (0 : ℚ) else price - priceFloor
           else
             if priceCap ≤ price then (0 : ℚ) else priceCap - price) := by
    intro q
    split
    · split
      · exact le_refl 0
      · linarith [not_le.mp (by assumption : ¬ price ≤ priceFloor)]
    · split
      · exact le_refl 0
      · linarith [not_le.mp (by assumption : ¬ priceCap ≤ price)]
  constructor
  · intro qty _
    have h1 := hmaxLoss qty
    have h2 : (0 : ℚ) ≤ |qty| := abs_nonneg qty
    simp only [calculateNeededCollateral]
    exact mul_nonneg (mul_nonneg h1 h2) hm
  · intro q₁ q₂ hsign habs
    simp only [calculateNeededCollateral]
    by_cases h1 : 0 ≤ q₁
    · have h2 : 0 ≤ q₂ := hsign.mp h1
      rw [if_pos h1, if_pos h2]
      have hml := hmaxLoss q₁
      rw [if_pos h1] at hml
      exact mul_le_mul_of_nonneg_right
        (mul_le_mul_of_nonneg_left habs hml) hm
    · have h2 : ¬ 0 ≤ q₂ := fun h => h1 (hsign.mpr h)
      rw [if_neg h1, if_neg h2]
      have hml := hmaxLoss q₁
      rw [if_neg h1] at hml
      exact mul_le_mul_of_nonneg_right
        (mul_le_mul_of_nonneg_left habs hml) hm

/-- Witness for C8: floor 1, cap 10, multiplier 2, price 4, qty 3 and the
monotone pair (3, 5). -/
theorem calculateNeededCollateral_nonneg_monotone_witness :
    0 ≤ calculateNeededCollateral 1 10 2 3 4 ∧
    calculateNeededCollateral 1 10 2 3 4 ≤ calculateNeededCollateral 1 10 2 5 4 := by
  have h := calculateNeededCollateral_nonneg_monotone 1 10 2 4
    (by norm_num) (by norm_num) (by norm_num) (by norm_num) (by norm_num)
  exact ⟨h.1 3 (by norm_num), h.2 3 5 (by norm_num) (by norm_num)⟩

/-- Model of a bignumber.js value: a finite decimal, `NaN`, or a signed
infinity.  Only the fillable-quantity computation can leave the finite
range (through an unguarded division), so all other quantities stay in `ℚ`. -/
inductive BigVal where
  | fin (q : ℚ)
  | nan
  | posInf
  | negInf
deriving DecidableEq, Repr

namespace BigVal

/-- bignumber.js `dividedBy` on finite operands: division by zero yields a
signed infinity, `0/0` yields `NaN`. -/
def div (a b : ℚ) : BigVal :=
  if b = 0 then
    if a = 0 then nan
    else if 0 < a then posInf else negInf
  else fin (a / b)

/-- bignumber.js `times` of a (possibly non-finite) value by a finite one:
`NaN` propagates; an infinity times zero is `NaN`, otherwise the sign rule
applies. -/
def times (v : BigVal) (q : ℚ) : BigVal :=
  match v with
  | fin a => fin (a * q)
  | nan => nan
  | posInf => if q = 0 then nan else if 0 < q then posInf else negInf
  | negInf => if q = 0 then nan else if 0 < q then negInf else posInf

/-- bignumber.js `BigNumber.min`: `NaN` if either argument is `NaN`,
otherwise the usual order with `-Infinity` least and `+Infinity` greatest. -/
def minB : BigVal → BigVal → BigVal
  | nan, _ => nan
  | _, nan => nan
  | negInf, _ => negInf
  | _, negInf => negInf
  | posInf, b => b
  | a, posInf => a
  | fin a, fin b => fin (min a b)

end BigVal

/-- The order value object (`SignedOrder` of `@marketprotocol/types`), with
the derived `remainingQty` field.  The three-part ECDSA signature is not
represented: signature validity enters the model as an oracle answer in
`TradeEnv`. -/
structure SignedOrder where
  contractAddress : String
  maker : String
  taker : String
  feeRecipient : String
  makerFee : ℚ
  takerFee : ℚ
  price : ℚ
  expirationTimestamp : ℚ
  salt : ℚ
  orderQty : ℚ
  remainingQty : ℚ
deriving DecidableEq, Repr

/-- One external chain interaction, recorded in the call traces of the
embedded computations. -/
inductive Call where
  | getAllowance (token owner spender : String)
  | getBalance (token owner : String)
  | getCollateral (contractAddress user : String)
  | getQtyFilledOrCancelled (contractAddress orderHash : String)
  | getContractTerms (contractAddress : String)
  | submitTrade (order : SignedOrder) (fillQty : ℚ)
deriving DecidableEq, Repr

/-- The account an external call reads data about, if any. -/
def Call.account? : Call → Option String
  | getAllowance _ owner _ => some owner
  | getBalance _ owner => some owner
  | getCollateral _ user => some user
  | getQtyFilledOrCancelled _ _ => none
  | getContractTerms _ => none
  | submitTrade _ _ => none

/-- Read-only chain state consumed by `RemainingFillableCalculator` through
the `Market` facade: token allowances and balances, unallocated collateral,
the order fill/cancel ledger, and the contract terms used by
`calculateNeededCollateralAsync`. -/
structure CalcEnv where
  mktTokenAddress : String
  getAllowance : String → String → String → ℚ
  getBalance : String → String → ℚ
  getUserUnallocatedCollateralBalance : String → String → ℚ
  getQtyFilledOrCancelled : String → String → ℚ
  PRICE_FLOOR : ℚ
  PRICE_CAP : ℚ
  QTY_MULTIPLIER : ℚ

namespace RemainingFillableCalculator

/-- Embedding of `RemainingFillableCalculator._getAvailableFeeFunds`
(src/src/lib/Utils.ts, lines 388-411): fetch the account's fee-token
allowance for the fee recipient; reject with
`InsufficientAllowanceForTransfer` when it is below the account's declared
fee; otherwise fetch and return the account's fee-token balance. -/
def getAvailableFeeFunds (env : CalcEnv) (o : SignedOrder) (accountAddress : String) :
    Except MarketError ℚ × List Call :=
  if (accountAddress = o.maker ∧
        env.getAllowance env.mktTokenAddress accountAddress o.feeRecipient < o.makerFee) ∨
     (accountAddress = o.taker ∧
        env.getAllowance env.mktTokenAddress accountAddress o.feeRecipient < o.takerFee) then
    (.error .InsufficientAllowanceForTransfer,
     [Call.getAllowance env.mktTokenAddress accountAddress o.feeRecipient])
  else
    (.ok (env.getBalance env.mktTokenAddress accountAddress),
     [Call.getAllowance env.mktTokenAddress accountAddress o.feeRecipient,
      Call.getBalance env.mktTokenAddress accountAddress])

/-- Embedding of `RemainingFillableCalculator._hasMakerSufficientFundsForFee`:
the maker's available fee funds must reach the maker fee. -/
def hasMakerSufficientFundsForFee (env : CalcEnv) (o : SignedOrder) :
    Except MarketError Bool × List Call :=
  match getAvailableFeeFunds env o o.maker with
  | (.error e, t) => (.error e, t)
  | (.ok funds, t) => (.ok (decide (o.makerFee ≤ funds)), t)

/-- Embedding of `RemainingFillableCalculator._hasTakerSufficientFundsForFee`. -/
def hasTakerSufficientFundsForFee (env : CalcEnv) (o : SignedOrder) :
    Except MarketError Bool × List Call :=
  match getAvailableFeeFunds env o o.taker with
  | (.error e, t) => (.error e, t)
  | (.ok funds, t) => (.ok (decide (o.takerFee ≤ funds)), t)

/-- Embedding of `RemainingFillableCalculator.computeRemainingMakerFillable`
(src/src/lib/Utils.ts, lines 311-338).  The division
`availableCollateral / neededCollateral` is taken in `BigVal`, reproducing the
bignumber.js behaviour on a zero divisor. -/
def computeRemainingMakerFillable (env : CalcEnv) (o : SignedOrder)
    (orderHash : String) : Except MarketError BigVal × List Call :=
  match hasMakerSufficientFundsForFee env o with
  | (.error e, t) => (.error e, t)
  | (.ok hasAvailableFeeFunds, t) =>
    if hasAvailableFeeFunds = false then
      (.error .InsufficientBalanceForTransfer, t)
    else
      let makerAvailableCollateral :=
        env.getUserUnallocatedCollateralBalance o.contractAddress o.maker
      let neededCollateral :=
        calculateNeededCollateral env.PRICE_FLOOR env.PRICE_CAP env.QTY_MULTIPLIER
          o.orderQty o.price
      let alreadyFilledOrCancelled :=
        env.getQtyFilledOrCancelled o.contractAddress orderHash
      let remainingToFill := o.orderQty - alreadyFilledOrCancelled
      let fillableQty := (BigVal.div makerAvailableCollateral neededCollateral).times o.orderQty
      (.ok (fillableQty.minB (.fin remainingToFill)),
       t ++ [Call.getCollateral o.contractAddress o.maker,
             Call.getContractTerms o.contractAddress,
             Call.getQtyFilledOrCancelled o.contractAddress orderHash])

/-- Embedding of `RemainingFillableCalculator.computeRemainingTakerFillable`
(src/src/lib/Utils.ts, lines 340-365).  Note the source fetches the taker's
collateral before running the taker fee-funds check. -/
def computeRemainingTakerFillable (env : CalcEnv) (o : SignedOrder)
    (orderHash : String) : Except MarketError BigVal × List Call :=
  match computeRemainingMakerFillable env o orderHash with
  | (.error e, t) => (.error e, t)
  | (.ok makerFillable, t) =>
    if o.taker = NULL_ADDRESS then
      (.ok makerFillable, t)
    else
      let takerAvailableCollateral :=
        env.getUserUnallocatedCollateralBalance o.contractAddress o.taker
      let t₁ := t ++ [Call.getCollateral o.contractAddress o.taker]
      match hasTakerSufficientFundsForFee env o with
      | (.error e, t₂) => (.error e, t₁ ++ t₂)
      | (.ok hasAvailableFeeFunds, t₂) =>
        if hasAvailableFeeFunds = false then
          (.error .InsufficientBalanceForTransfer, t₁ ++ t₂)
        else
          let neededCollateral :=
            calculateNeededCollateral env.PRICE_FLOOR env.PRICE_CAP env.QTY_MULTIPLIER
              o.orderQty o.price
          let takerFillable :=
            (BigVal.div takerAvailableCollateral neededCollateral).times o.orderQty
          (.ok (makerFillable.minB takerFillable),
           t₁ ++ t₂ ++ [Call.getContractTerms o.contractAddress])

/-- Every call issued by `getAvailableFeeFunds` reads data about the queried
account only. -/
theorem getAvailableFeeFunds_trace_accounts (env : CalcEnv) (o : SignedOrder)
    (accountAddress : String) :
    ∀ c ∈ (getAvailableFeeFunds env o accountAddress).2,
      c.account? = some accountAddress := by
  intro c hc
  unfold getAvailableFeeFunds at hc
  split at hc <;>
    simp only [List.mem_cons, List.not_mem_nil, or_false] at hc
  · subst hc; rfl
  · rcases hc with hc | hc <;> subst hc <;> rfl

/-- The fee sub-check for the maker issues exactly the calls of
`getAvailableFeeFunds` on the maker. -/
theorem hasMakerSufficientFundsForFee_trace (env : CalcEnv) (o : SignedOrder) :
    (hasMakerSufficientFundsForFee env o).2 = (getAvailableFeeFunds env o o.maker).2 := by
  unfold hasMakerSufficientFundsForFee
  rcases h : getAvailableFeeFunds env o o.maker with ⟨r, t⟩
  cases r <;> rfl

/-- Every call issued by `computeRemainingMakerFillable` reads either no
account at all or the maker's account. -/
theorem computeRemainingMakerFillable_trace_accounts (env : CalcEnv) (o : SignedOrder)
    (orderHash : String) :
    ∀ c ∈ (computeRemainingMakerFillable env o orderHash).2,
      c.account? = none ∨ c.account? = some o.maker := by
  unfold computeRemainingMakerFillable
  rcases hh : hasMakerSufficientFundsForFee env o with ⟨r, t⟩
  have ht : ∀ c ∈ t, c.account? = some o.maker := by
    intro c hct
    have h2 : t = (getAvailableFeeFunds env o o.maker).2 := by
      rw [← hasMakerSufficientFundsForFee_trace env o, hh]
    exact getAvailableFeeFunds_trace_accounts env o o.maker c (h2 ▸ hct)
  cases r with
  | error e => exact fun c hc => Or.inr (ht c hc)
  | ok f =>
    cases f with
    | false => exact fun c hc => Or.inr (ht c hc)
    | true =>
      intro c hc
      have hc' : c ∈ t ++ [Call.getCollateral o.contractAddress o.maker,
          Call.getContractTerms o.contractAddress,
          Call.getQtyFilledOrCancelled o.contractAddress orderHash] := hc
      rcases List.mem_append.mp hc' with hmem | hmem
      · exact Or.inr (ht c hmem)
      · simp only [List.mem_cons, List.not_mem_nil, or_false] at hmem
        rcases hmem with h1 | h1 | h1 <;> subst h1
        · exact Or.inr rfl
        · exact Or.inl rfl
        · exact Or.inl rfl

/-- Evaluation of `computeRemainingMakerFillable` when the maker passes the
fee sub-check (allowance guard false, balance at least the maker fee). -/
theorem computeRemainingMakerFillable_eval (env : CalcEnv) (o : SignedOrder)
    (orderHash : String)
    (hguard : ¬ ((o.maker = o.maker ∧
        env.getAllowance env.mktTokenAddress o.maker o.feeRecipient < o.makerFee) ∨
      (o.maker = o.taker ∧
        env.getAllowance env.mktTokenAddress o.maker o.feeRecipient < o.takerFee)))
    (hbal : o.makerFee ≤ env.getBalance env.mktTokenAddress o.maker) :
    computeRemainingMakerFillable env o orderHash =
      (.ok (((BigVal.div (env.getUserUnallocatedCollateralBalance o.contractAddress o.maker)
            (calculateNeededCollateral env.PRICE_FLOOR env.PRICE_CAP env.QTY_MULTIPLIER
              o.orderQty o.price)).times o.orderQty).minB
          (.fin (o.orderQty - env.getQtyFilledOrCancelled o.contractAddress orderHash))),
       [Call.getAllowance env.mktTokenAddress o.maker o.feeRecipient,
        Call.getBalance env.mktTokenAddress o.maker,
        Call.getCollateral o.contractAddress o.maker,
        Call.getContractTerms o.contractAddress,
        Call.getQtyFilledOrCancelled o.contractAddress orderHash]) := by
  unfold computeRemainingMakerFillable hasMakerSufficientFundsForFee getAvailableFeeFunds
  rw [if_neg hguard]
  simp [hbal]

end RemainingFillableCalculator

/-- Constant-valued calculator environment used for concrete instances:
all allowances and fee balances are zero, every account holds `coll`
unallocated collateral, the fill/cancel ledger answers `filled`, and the
contract terms are `(floor, cap, mult)`. -/
def calcEnvConst (floor cap mult coll filled : ℚ) : CalcEnv :=
  ⟨"0xmkt", fun _ _ _ => 0, fun _ _ => 0, fun _ _ => coll, fun _ _ => filled,
   floor, cap, mult⟩

/-- Zero-fee open-taker order of quantity `qty` at limit price `price`. -/
def mkOrder (qty price : ℚ) : SignedOrder :=
  ⟨"0xmc", "0xmaker", NULL_ADDRESS, "0xfee", 0, 0, price, 1000, 1, qty, qty⟩

open RemainingFillableCalculator

/-- C3 counterexample: for a sell order of quantity -100 with -2 already
filled and collateral covering the full order, `computeRemainingMakerFillable`
returns -100, whose absolute value 100 exceeds
`|orderQty| - |alreadyFilledOrCancelled| = 98`: the signed `BigNumber.min`
picks the more negative of the two caps on sell orders. -/
theorem computeRemainingMakerFillable_sell_counterexample :
    (computeRemainingMakerFillable (calcEnvConst 0 10 1 500 (-2))
        (mkOrder (-100) 5) "0xhash").1 = .ok (.fin (-100)) ∧
    (calcEnvConst 0 10 1 500 (-2)).getQtyFilledOrCancelled
        (mkOrder (-100) 5).contractAddress "0xhash" = -2 ∧
    ¬ (|(-100 : ℚ)| ≤ |(mkOrder (-100) 5).orderQty| - |(-2 : ℚ)|) := by
  have h := computeRemainingMakerFillable_eval (calcEnvConst 0 10 1 500 (-2))
    (mkOrder (-100) 5) "0xhash" (by decide) (by decide)
  refine ⟨?_, rfl, by norm_num [mkOrder]⟩
  rw [h]
  norm_num [calcEnvConst, mkOrder, calculateNeededCollateral,
    BigVal.div, BigVal.times, BigVal.minB, min_def]

/-- C3 (amended): for a buy order — positive `orderQty`, already-filled
quantity between 0 and the order quantity, maker passing the fee sub-check,
non-negative available collateral and positive needed collateral — the
absolute value of the returned fillable quantity never exceeds
`|orderQty| - |alreadyFilledOrCancelled|`.  (The unamended claim, which also
covered sell orders, is refuted by
`computeRemainingMakerFillable_sell_counterexample`.) -/
theorem computeRemainingMakerFillable_ledger_cap (env : CalcEnv) (o : SignedOrder)
    (orderHash : String)
    (hguard : ¬ ((o.maker = o.maker ∧
        env.getAllowance env.mktTokenAddress o.maker o.feeRecipient < o.makerFee) ∨
      (o.maker = o.taker ∧
        env.getAllowance env.mktTokenAddress o.maker o.feeRecipient < o.takerFee)))
    (hbal : o.makerFee ≤ env.getBalance env.mktTokenAddress o.maker)
    (hqty : 0 < o.orderQty)
    (hfil0 : 0 ≤ env.getQtyFilledOrCancelled o.contractAddress orderHash)
    (hfil1 : |env.getQtyFilledOrCancelled o.contractAddress orderHash| ≤ |o.orderQty|)
    (havail : 0 ≤ env.getUserUnallocatedCollateralBalance o.contractAddress o.maker)
    (hneeded : 0 < calculateNeededCollateral env.PRICE_FLOOR env.PRICE_CAP
        env.QTY_MULTIPLIER o.orderQty o.price) :
    ∃ x : ℚ, (computeRemainingMakerFillable env o orderHash).1 = .ok (.fin x) ∧
      |x| ≤ |o.orderQty| - |env.getQtyFilledOrCancelled o.contractAddress orderHash| := by
  rw [computeRemainingMakerFillable_eval env o orderHash hguard hbal]
  rw [BigVal.div, if_neg (ne_of_gt hneeded)]
  refine ⟨_, rfl, ?_⟩
  have hfil2 : env.getQtyFilledOrCancelled o.contractAddress orderHash ≤ o.orderQty := by
    have := hfil1
    rw [abs_of_nonneg hfil0, abs_of_nonneg (le_of_lt hqty)] at this
    exact this
  have hx0 : 0 ≤ min (env.getUserUnallocatedCollateralBalance o.contractAddress o.maker /
      calculateNeededCollateral env.PRICE_FLOOR env.PRICE_CAP env.QTY_MULTIPLIER
        o.orderQty o.price * o.orderQty)
      (o.orderQty - env.getQtyFilledOrCancelled o.contractAddress orderHash) :=
    le_min (mul_nonneg (div_nonneg havail (le_of_lt hneeded)) (le_of_lt hqty))
      (by linarith)
  rw [abs_of_nonneg hx0, abs_of_nonneg (le_of_lt hqty), abs_of_nonneg hfil0]
  exact min_le_right _ _

/-- Witness for C3 (amended): order quantity 100, already filled 2, collateral
500 against needed collateral 500. -/
theorem computeRemainingMakerFillable_ledger_cap_witness :
    ∃ x : ℚ, (computeRemainingMakerFillable (calcEnvConst 0 10 1 500 2)
        (mkOrder 100 5) "0xhash").1 = .ok (.fin x) ∧
      |x| ≤ |(mkOrder 100 5).orderQty| -
        |(calcEnvConst 0 10 1 500 2).getQtyFilledOrCancelled
          (mkOrder 100 5).contractAddress "0xhash"| :=
  computeRemainingMakerFillable_ledger_cap (calcEnvConst 0 10 1 500 2)
    (mkOrder 100 5) "0xhash" (by decide) (by decide) (by decide) (by decide)
    (by decide) (by decide)
    (by norm_num [calcEnvConst, mkOrder, calculateNeededCollateral])

/-- C4: for a buy order whose maker passes the fee sub-check and whose needed
collateral for the full order quantity is positive,
`computeRemainingMakerFillable` returns
`min ((availableCollateral / neededCollateral) · orderQty)
     (orderQty - alreadyFilledOrCancelled)`. -/
theorem computeRemainingMakerFillable_min_formula (env : CalcEnv) (o : SignedOrder)
    (orderHash : String)
    (hguard : ¬ ((o.maker = o.maker ∧
        env.getAllowance env.mktTokenAddress o.maker o.feeRecipient < o.makerFee) ∨
      (o.maker = o.taker ∧
        env.getAllowance env.mktTokenAddress o.maker o.feeRecipient < o.takerFee)))
    (hbal : o.makerFee ≤ env.getBalance env.mktTokenAddress o.maker)
    (hqty : 0 < o.orderQty)
    (hneeded : 0 < calculateNeededCollateral env.PRICE_FLOOR env.PRICE_CAP
        env.QTY_MULTIPLIER o.orderQty o.price) :
    (computeRemainingMakerFillable env o orderHash).1 =
      .ok (.fin (min (env.getUserUnallocatedCollateralBalance o.contractAddress o.maker /
          calculateNeededCollateral env.PRICE_FLOOR env.PRICE_CAP env.QTY_MULTIPLIER
            o.orderQty o.price * o.orderQty)
        (o.orderQty - env.getQtyFilledOrCancelled o.contractAddress orderHash))) := by
  rw [computeRemainingMakerFillable_eval env o orderHash hguard hbal]
  rw [BigVal.div, if_neg (ne_of_gt hneeded)]
  rfl

/-- Witness for C4, realising the spec scenario: order quantity 100, already
filled 2 (ledger cap 98), maker collateral supporting only 50 — the fillable
quantity is 50. -/
theorem computeRemainingMakerFillable_min_formula_witness :
    (computeRemainingMakerFillable (calcEnvConst 0 10 1 50 2)
        (mkOrder 100 1) "0xhash").1 = .ok (.fin 50) := by
  rw [computeRemainingMakerFillable_min_formula (calcEnvConst 0 10 1 50 2)
    (mkOrder 100 1) "0xhash" (by decide) (by decide) (by decide)
    (by norm_num [calcEnvConst, mkOrder, calculateNeededCollateral])]
  norm_num [calcEnvConst, mkOrder, calculateNeededCollateral, min_def]

/-- C7: when the order's taker is the open sentinel (the null address),
`computeRemainingTakerFillable` is exactly `computeRemainingMakerFillable` —
same result and same external-call trace — and no issued call reads any
account other than the maker's (in particular no taker allowance, balance or
collateral fetch). -/
theorem computeRemainingTakerFillable_open_taker (env : CalcEnv) (o : SignedOrder)
    (orderHash : String) (ht : o.taker = NULL_ADDRESS) :
    computeRemainingTakerFillable env o orderHash =
      computeRemainingMakerFillable env o orderHash ∧
    ∀ c ∈ (computeRemainingTakerFillable env o orderHash).2,
      c.account? = none ∨ c.account? = some o.maker := by
  have heq : computeRemainingTakerFillable env o orderHash =
      computeRemainingMakerFillable env o orderHash := by
    unfold computeRemainingTakerFillable
    rcases h : computeRemainingMakerFillable env o orderHash with ⟨r, t⟩
    cases r with
    | error e => rfl
    | ok m => simp [ht]
  refine ⟨heq, ?_⟩
  rw [heq]
  exact computeRemainingMakerFillable_trace_accounts env o orderHash

/-- Witness for C7 at a concrete open-taker order. -/
theorem computeRemainingTakerFillable_open_taker_witness :
    computeRemainingTakerFillable (calcEnvConst 0 10 1 500 2)
        (mkOrder 100 5) "0xhash" =
      computeRemainingMakerFillable (calcEnvConst 0 10 1 500 2)
        (mkOrder 100 5) "0xhash" :=
  (computeRemainingTakerFillable_open_taker (calcEnvConst 0 10 1 500 2)
    (mkOrder 100 5) "0xhash" rfl).1

/-- C10: the division `availableCollateral / neededCollateral` is unguarded.
For a buy order priced at or below the price floor (needed collateral 0) whose
maker passes the fee sub-check but holds zero collateral,
`computeRemainingMakerFillable` returns the bignumber.js `NaN` (0/0), not zero
and not a tagged error. -/
theorem computeRemainingMakerFillable_nan_unguarded_division :
    (computeRemainingMakerFillable (calcEnvConst 10 20 1 0 0)
        (mkOrder 100 5) "0xhash").1 = .ok .nan ∧
    calculateNeededCollateral (calcEnvConst 10 20 1 0 0).PRICE_FLOOR
        (calcEnvConst 10 20 1 0 0).PRICE_CAP (calcEnvConst 10 20 1 0 0).QTY_MULTIPLIER
        (mkOrder 100 5).orderQty (mkOrder 100 5).price = 0 ∧
    (calcEnvConst 10 20 1 0 0).getUserUnallocatedCollateralBalance
        (mkOrder 100 5).contractAddress (mkOrder 100 5).maker = 0 := by
  have h := computeRemainingMakerFillable_eval (calcEnvConst 10 20 1 0 0)
    (mkOrder 100 5) "0xhash" (by decide) (by decide)
  refine ⟨?_, by norm_num [calcEnvConst, mkOrder, calculateNeededCollateral], rfl⟩
  rw [h]
  norm_num [calcEnvConst, mkOrder, calculateNeededCollateral,
    BigVal.div, BigVal.times, BigVal.minB]

/-- Modelled from the spec: `OrderTransactionInfo` (src/lib/OrderTransactionInfo
is not among the provided sources).  Transaction metadata returned on a
successful submission: transaction hash, block number, and the echoed order. -/
structure OrderTransactionInfo where
  txHash : String
  blockNumber : ℤ
  order : SignedOrder
deriving DecidableEq, Repr

/-- Read-only chain state and transaction context consumed by
`tradeOrderAsync`: the settlement flag, the clock, the outcome of the
signature-verification collaborator, the enablement registry, fee-token
balances and allowances, unallocated collateral, the contract terms, and the
metadata the backend reports for the submitted transaction. -/
structure TradeEnv where
  isSettled : Bool
  currentTime : ℚ
  isValidSignature : Bool
  isUserEnabledForContract : String → Bool
  mktTokenAddress : String
  getBalance : String → String → ℚ
  getAllowance : String → String → String → ℚ
  getUserUnallocatedCollateralBalance : String → String → ℚ
  PRICE_FLOOR : ℚ
  PRICE_CAP : ℚ
  QTY_MULTIPLIER : ℚ
  txHash : String
  blockNumber : ℤ

/-- Embedding of `ContractWrapper.tradeOrderAsync`
(src/src/contract_wrappers/ContractWrapper.ts, lines 110-257; the variant in
MarketProtocolContractWrapper.ts lines 116-286 performs the same checks in the
same order).  `txFrom` is `txParams.from`; the effective taker defaults to the
null address.  The trace records the submission to `tradeOrderTx` only. -/
def tradeOrderAsync (env : TradeEnv) (signedOrder : SignedOrder) (fillQty : ℚ)
    (txFrom : Option String) : Except MarketError OrderTransactionInfo × List Call :=
  if env.isSettled then
    (.error .ContractAlreadySettled, [])
  else if decide (signedOrder.taker ≠ NULL_ADDRESS ∧ signedOrder.taker ≠ txFrom.getD NULL_ADDRESS) then
    (.error .InvalidTaker, [])
  else if decide (signedOrder.expirationTimestamp < env.currentTime) then
    (.error .OrderExpired, [])
  else if decide (signedOrder.remainingQty = 0) then
    (.error .OrderFilledOrCancelled, [])
  else if decide (0 ≤ signedOrder.orderQty) != decide (0 ≤ fillQty) then
    (.error .BuySellMismatch, [])
  else if !env.isValidSignature then
    (.error .InvalidSignature, [])
  else if !(env.isUserEnabledForContract signedOrder.maker && env.isUserEnabledForContract (txFrom.getD NULL_ADDRESS)) then
    (.error .UserNotEnabledForContract, [])
  else if decide (env.getBalance env.mktTokenAddress signedOrder.maker < signedOrder.makerFee) then
    (.error .InsufficientBalanceForTransfer, [])
  else if decide (env.getAllowance env.mktTokenAddress signedOrder.maker signedOrder.feeRecipient <
      signedOrder.makerFee) then
    (.error .InsufficientAllowanceForTransfer, [])
  else if decide (env.getBalance env.mktTokenAddress (txFrom.getD NULL_ADDRESS) < signedOrder.takerFee) then
    (.error .InsufficientBalanceForTransfer, [])
  else if decide (env.getAllowance env.mktTokenAddress (txFrom.getD NULL_ADDRESS) signedOrder.feeRecipient <
      signedOrder.takerFee) then
    (.error .InsufficientAllowanceForTransfer, [])
  else if decide (env.getUserUnallocatedCollateralBalance signedOrder.contractAddress signedOrder.maker <
      calculateNeededCollateral env.PRICE_FLOOR env.PRICE_CAP env.QTY_MULTIPLIER
        fillQty signedOrder.price) then
    (.error .InsufficientCollateralBalance, [])
  else if decide (env.getUserUnallocatedCollateralBalance signedOrder.contractAddress (txFrom.getD NULL_ADDRESS) <
      calculateNeededCollateral env.PRICE_FLOOR env.PRICE_CAP env.QTY_MULTIPLIER
        (fillQty * (-1)) signedOrder.price) then
    (.error .InsufficientCollateralBalance, [])
  else
    (.ok ⟨env.txHash, env.blockNumber, signedOrder⟩,
     [Call.submitTrade signedOrder fillQty])

/-- The validation sequence of spec §4.4, written from the spec's words as a
list of (violation condition, error) pairs in the stated order: contract
settlement, taker identity, expiration, non-zero remaining quantity, buy/sell
sign match, signature validity, maker/taker enablement, maker fee sufficiency,
taker fee sufficiency, maker collateral, taker collateral.  The fee steps
carry a balance condition and an allowance condition each. -/
def tradeCheckSequence (env : TradeEnv) (signedOrder : SignedOrder) (fillQty : ℚ)
    (txFrom : Option String) : List (Bool × MarketError) :=
  [(env.isSettled, .ContractAlreadySettled),
   (decide (signedOrder.taker ≠ NULL_ADDRESS ∧ signedOrder.taker ≠ txFrom.getD NULL_ADDRESS), .InvalidTaker),
   (decide (signedOrder.expirationTimestamp < env.currentTime), .OrderExpired),
   (decide (signedOrder.remainingQty = 0), .OrderFilledOrCancelled),
   (decide (0 ≤ signedOrder.orderQty) != decide (0 ≤ fillQty), .BuySellMismatch),
   (!env.isValidSignature, .InvalidSignature),
   (!(env.isUserEnabledForContract signedOrder.maker && env.isUserEnabledForContract (txFrom.getD NULL_ADDRESS)),
     .UserNotEnabledForContract),
   (decide (env.getBalance env.mktTokenAddress signedOrder.maker < signedOrder.makerFee),
     .InsufficientBalanceForTransfer),
   (decide (env.getAllowance env.mktTokenAddress signedOrder.maker signedOrder.feeRecipient <
       signedOrder.makerFee), .InsufficientAllowanceForTransfer),
   (decide (env.getBalance env.mktTokenAddress (txFrom.getD NULL_ADDRESS) < signedOrder.takerFee),
     .InsufficientBalanceForTransfer),
   (decide (env.getAllowance env.mktTokenAddress (txFrom.getD NULL_ADDRESS) signedOrder.feeRecipient <
       signedOrder.takerFee), .InsufficientAllowanceForTransfer),
   (decide (env.getUserUnallocatedCollateralBalance signedOrder.contractAddress signedOrder.maker <
       calculateNeededCollateral env.PRICE_FLOOR env.PRICE_CAP env.QTY_MULTIPLIER
         fillQty signedOrder.price), .InsufficientCollateralBalance),
   (decide (env.getUserUnallocatedCollateralBalance signedOrder.contractAddress (txFrom.getD NULL_ADDRESS) <
       calculateNeededCollateral env.PRICE_FLOOR env.PRICE_CAP env.QTY_MULTIPLIER
         (fillQty * (-1)) signedOrder.price), .InsufficientCollateralBalance)]

/-- The error of the earliest violated check in a check sequence, if any. -/
def firstFailure : List (Bool × MarketError) → Option MarketError
  | [] => none
  | (c, e) :: rest => if c then some e else firstFailure rest

/-- `firstFailure` agrees with searching the sequence for its first violated
entry. -/
theorem firstFailure_eq_find? (checks : List (Bool × MarketError)) :
    firstFailure checks = (checks.find? Prod.fst).map Prod.snd := by
  induction checks with
  | nil => rfl
  | cons head rest ih =>
    rcases head with ⟨c, e⟩
    cases c with
    | false => simpa [firstFailure, List.find?] using ih
    | true => simp [firstFailure, List.find?]

/-- A guard chain: run the checks in order, abort with the first violated
check's error, and fall through to `success` when all pass. -/
def runChecks (checks : List (Bool × MarketError))
    (success : Except MarketError OrderTransactionInfo × List Call) :
    Except MarketError OrderTransactionInfo × List Call :=
  match checks with
  | [] => success
  | (c, e) :: rest => if c then (.error e, []) else runChecks rest success

/-- The outcome of a guard chain is the first violated check's error, or the
fall-through value when every check passes. -/
theorem runChecks_fst (checks : List (Bool × MarketError))
    (success : Except MarketError OrderTransactionInfo × List Call) :
    (runChecks checks success).1 =
      match firstFailure checks with
      | some e => .error e
      | none => success.1 := by
  induction checks with
  | nil => rfl
  | cons head rest ih =>
    rcases head with ⟨c, e⟩
    cases c <;> simp [runChecks, firstFailure, ih]

/-- C2: `tradeOrderAsync` realises exactly the §4.4 sequence: its outcome is
the error attached to the first violated condition of `tradeCheckSequence`,
and success when no condition is violated.  Within each fee-sufficiency step
the balance condition precedes the allowance condition, matching the source
(see the C5 theorems for that internal order). -/
theorem tradeOrderAsync_earliest_violation (env : TradeEnv) (signedOrder : SignedOrder)
    (fillQty : ℚ) (txFrom : Option String) :
    (tradeOrderAsync env signedOrder fillQty txFrom).1 =
      match ((tradeCheckSequence env signedOrder fillQty txFrom).find? Prod.fst).map
          Prod.snd with
      | some e => .error e
      | none => .ok ⟨env.txHash, env.blockNumber, signedOrder⟩ := by
  rw [← firstFailure_eq_find?]
  have h : tradeOrderAsync env signedOrder fillQty txFrom =
      runChecks (tradeCheckSequence env signedOrder fillQty txFrom)
        (.ok ⟨env.txHash, env.blockNumber, signedOrder⟩,
         [Call.submitTrade signedOrder fillQty]) := rfl
  rw [h, runChecks_fst]

/-- A guard chain either falls through to `success` or stops at some check's
error with an empty trace. -/
theorem runChecks_cases (checks : List (Bool × MarketError))
    (success : Except MarketError OrderTransactionInfo × List Call) :
    runChecks checks success = success ∨
      ∃ e, runChecks checks success = (.error e, []) := by
  induction checks with
  | nil => exact Or.inl rfl
  | cons head rest ih =>
    rcases head with ⟨c, e⟩
    cases c with
    | false => simpa [runChecks] using ih
    | true => exact Or.inr ⟨e, by simp [runChecks]⟩

/-- C6: whenever any validation check fails, `tradeOrderAsync` issues no call
to the submit interface (`tradeOrderTx`) — the trace is empty; the submission
happens exactly once, only when every check passes, and then the returned
metadata carries the backend transaction hash, the block number, and the
echoed order. -/
theorem tradeOrderAsync_no_submit_on_failure (env : TradeEnv) (signedOrder : SignedOrder)
    (fillQty : ℚ) (txFrom : Option String) :
    (∀ e, (tradeOrderAsync env signedOrder fillQty txFrom).1 = .error e →
      (tradeOrderAsync env signedOrder fillQty txFrom).2 = []) ∧
    (∀ info, (tradeOrderAsync env signedOrder fillQty txFrom).1 = .ok info →
      (tradeOrderAsync env signedOrder fillQty txFrom).2 =
        [Call.submitTrade signedOrder fillQty] ∧
      info = ⟨env.txHash, env.blockNumber, signedOrder⟩) := by
  have h : tradeOrderAsync env signedOrder fillQty txFrom =
      runChecks (tradeCheckSequence env signedOrder fillQty txFrom)
        (.ok ⟨env.txHash, env.blockNumber, signedOrder⟩,
         [Call.submitTrade signedOrder fillQty]) := rfl
  rcases runChecks_cases (tradeCheckSequence env signedOrder fillQty txFrom)
      (.ok ⟨env.txHash, env.blockNumber, signedOrder⟩,
       [Call.submitTrade signedOrder fillQty]) with hr | ⟨e, hr⟩ <;> rw [h, hr]
  · refine ⟨fun e' he' => ?_, fun info hinfo => ⟨rfl, ?_⟩⟩
    · exact absurd he' (by simp)
    · have := hinfo
      simp only [Except.ok.injEq] at this
      exact this.symm
  · refine ⟨fun e' _ => rfl, fun info hinfo => absurd hinfo (by simp)⟩

/-- Trade environment with fee-token balance `bal`, fee-token allowance
`allow` and unallocated collateral `coll` for every account; not settled,
clock at 0, valid signature, everyone enabled, terms (0, 10, 1). -/
def tradeEnvA (bal allow coll : ℚ) : TradeEnv :=
  ⟨false, 0, true, fun _ => true, "0xmkt", fun _ _ => bal, fun _ _ _ => allow,
   fun _ _ => coll, 0, 10, 1, "0xtx", 7⟩

/-- Trade environment whose market contract is already settled. -/
def settledEnv : TradeEnv :=
  ⟨true, 0, true, fun _ => true, "0xmkt", fun _ _ => 0, fun _ _ _ => 0,
   fun _ _ => 0, 0, 10, 1, "0xtx", 7⟩

/-- Open-taker buy order of quantity 100 at price 5 with maker fee
`makerFee` and taker fee 0. -/
def feeOrder (makerFee : ℚ) : SignedOrder :=
  ⟨"0xmc", "0xmaker", NULL_ADDRESS, "0xfee", makerFee, 0, 5, 1000, 1, 100, 100⟩

/-- Calculator environment with fee-token allowance `allow` and balance `bal`
for every account, zero collateral, empty ledger, terms (0, 10, 1). -/
def calcEnvFee (allow bal : ℚ) : CalcEnv :=
  ⟨"0xmkt", fun _ _ _ => allow, fun _ _ => bal, fun _ _ => 0, fun _ _ => 0,
   0, 10, 1⟩

/-- Buy order of quantity 100 at price 5 with the designated taker
"0xtaker", maker fee `makerFee` and taker fee `takerFee`. -/
def takerOrder (makerFee takerFee : ℚ) : SignedOrder :=
  ⟨"0xmc", "0xmaker", "0xtaker", "0xfee", makerFee, takerFee, 5, 1000, 1,
   100, 100⟩

/-- Witness for C6: with the contract already settled, the submit interface
receives zero calls; with every check passing, it receives exactly the one
fill submission. -/
theorem tradeOrderAsync_no_submit_on_failure_witness :
    (tradeOrderAsync settledEnv (feeOrder 100) 10 (some "0xtaker")).2 = [] ∧
    (tradeOrderAsync (tradeEnvA 200 200 1000) (feeOrder 100) 10
        (some "0xtaker")).2 = [Call.submitTrade (feeOrder 100) 10] := by
  constructor
  · exact (tradeOrderAsync_no_submit_on_failure settledEnv (feeOrder 100) 10
      (some "0xtaker")).1 .ContractAlreadySettled rfl
  · exact ((tradeOrderAsync_no_submit_on_failure (tradeEnvA 200 200 1000)
      (feeOrder 100) 10 (some "0xtaker")).2
      ⟨"0xtx", 7, feeOrder 100⟩
      (by norm_num [tradeOrderAsync, tradeEnvA, feeOrder, NULL_ADDRESS,
        calculateNeededCollateral])).1

/-- C5 counterexample: in `tradeOrderAsync`, a maker whose fee-token
allowance (0) is below the maker fee (100) and whose balance (0) is also
below the fee is rejected with `InsufficientBalanceForTransfer`, not with
`InsufficientAllowanceForTransfer` — the pipeline's step 8 compares the
balance first, contradicting the claimed allowance-before-balance order. -/
theorem tradeOrderAsync_balance_checked_before_allowance :
    (tradeOrderAsync (tradeEnvA 0 0 1000) (feeOrder 100) 10 (some "0xtaker")).1 =
      .error .InsufficientBalanceForTransfer ∧
    (tradeEnvA 0 0 1000).getAllowance (tradeEnvA 0 0 1000).mktTokenAddress
        (feeOrder 100).maker (feeOrder 100).feeRecipient < (feeOrder 100).makerFee ∧
    MarketError.InsufficientBalanceForTransfer ≠
      MarketError.InsufficientAllowanceForTransfer := by
  refine ⟨?_, by norm_num [tradeEnvA, feeOrder], by decide⟩
  norm_num [tradeOrderAsync, tradeEnvA, feeOrder, NULL_ADDRESS]

/-- C5 (amended): the allowance-before-balance order holds in the
calculator's shared fee sub-check for both parties — for the maker in
`computeRemainingMakerFillable` and for a designated taker in
`computeRemainingTakerFillable`, an allowance below the party's declared fee
rejects with `InsufficientAllowanceForTransfer` regardless of the balance,
and a sufficient allowance with insufficient balance rejects with
`InsufficientBalanceForTransfer` — but in step 8 of `tradeOrderAsync` the
balance is compared first for each party: with checks 1–7 passing, a maker
(or, with the maker's fee funds sufficient, a taker) whose balance is below
the party's fee is rejected with `InsufficientBalanceForTransfer` even when
the allowance is also insufficient, and with balance at least the fee but
allowance below it, with `InsufficientAllowanceForTransfer`. -/
theorem feeFund_check_order :
    (∀ (env : CalcEnv) (o : SignedOrder) (orderHash : String),
      (env.getAllowance env.mktTokenAddress o.maker o.feeRecipient < o.makerFee →
        (RemainingFillableCalculator.computeRemainingMakerFillable env o orderHash).1 =
          .error .InsufficientAllowanceForTransfer) ∧
      (¬ ((o.maker = o.maker ∧
            env.getAllowance env.mktTokenAddress o.maker o.feeRecipient < o.makerFee) ∨
          (o.maker = o.taker ∧
            env.getAllowance env.mktTokenAddress o.maker o.feeRecipient < o.takerFee)) →
        env.getBalance env.mktTokenAddress o.maker < o.makerFee →
        (RemainingFillableCalculator.computeRemainingMakerFillable env o orderHash).1 =
          .error .InsufficientBalanceForTransfer) ∧
      (¬ ((o.maker = o.maker ∧
            env.getAllowance env.mktTokenAddress o.maker o.feeRecipient < o.makerFee) ∨
          (o.maker = o.taker ∧
            env.getAllowance env.mktTokenAddress o.maker o.feeRecipient < o.takerFee)) →
        o.makerFee ≤ env.getBalance env.mktTokenAddress o.maker →
        o.taker ≠ NULL_ADDRESS →
        env.getAllowance env.mktTokenAddress o.taker o.feeRecipient < o.takerFee →
        (RemainingFillableCalculator.computeRemainingTakerFillable env o orderHash).1 =
          .error .InsufficientAllowanceForTransfer) ∧
      (¬ ((o.maker = o.maker ∧
            env.getAllowance env.mktTokenAddress o.maker o.feeRecipient < o.makerFee) ∨
          (o.maker = o.taker ∧
            env.getAllowance env.mktTokenAddress o.maker o.feeRecipient < o.takerFee)) →
        o.makerFee ≤ env.getBalance env.mktTokenAddress o.maker →
        o.taker ≠ NULL_ADDRESS →
        ¬ ((o.taker = o.maker ∧
            env.getAllowance env.mktTokenAddress o.taker o.feeRecipient < o.makerFee) ∨
          (o.taker = o.taker ∧
            env.getAllowance env.mktTokenAddress o.taker o.feeRecipient < o.takerFee)) →
        env.getBalance env.mktTokenAddress o.taker < o.takerFee →
        (RemainingFillableCalculator.computeRemainingTakerFillable env o orderHash).1 =
          .error .InsufficientBalanceForTransfer)) ∧
    (∀ (env : TradeEnv) (signedOrder : SignedOrder) (fillQty : ℚ) (txFrom : Option String),
      env.isSettled = false →
      ¬ (signedOrder.taker ≠ NULL_ADDRESS ∧
          signedOrder.taker ≠ txFrom.getD NULL_ADDRESS) →
      ¬ (signedOrder.expirationTimestamp < env.currentTime) →
      signedOrder.remainingQty ≠ 0 →
      decide (0 ≤ signedOrder.orderQty) = decide (0 ≤ fillQty) →
      env.isValidSignature = true →
      env.isUserEnabledForContract signedOrder.maker = true →
      env.isUserEnabledForContract (txFrom.getD NULL_ADDRESS) = true →
      (env.getBalance env.mktTokenAddress signedOrder.maker < signedOrder.makerFee →
        (tradeOrderAsync env signedOrder fillQty txFrom).1 =
          .error .InsufficientBalanceForTransfer) ∧
      (signedOrder.makerFee ≤ env.getBalance env.mktTokenAddress signedOrder.maker →
       env.getAllowance env.mktTokenAddress signedOrder.maker signedOrder.feeRecipient <
          signedOrder.makerFee →
        (tradeOrderAsync env signedOrder fillQty txFrom).1 =
          .error .InsufficientAllowanceForTransfer) ∧
      (signedOrder.makerFee ≤ env.getBalance env.mktTokenAddress signedOrder.maker →
       signedOrder.makerFee ≤
          env.getAllowance env.mktTokenAddress signedOrder.maker signedOrder.feeRecipient →
       env.getBalance env.mktTokenAddress (txFrom.getD NULL_ADDRESS) <
          signedOrder.takerFee →
        (tradeOrderAsync env signedOrder fillQty txFrom).1 =
          .error .InsufficientBalanceForTransfer) ∧
      (signedOrder.makerFee ≤ env.getBalance env.mktTokenAddress signedOrder.maker →
       signedOrder.makerFee ≤
          env.getAllowance env.mktTokenAddress signedOrder.maker signedOrder.feeRecipient →
       signedOrder.takerFee ≤ env.getBalance env.mktTokenAddress (txFrom.getD NULL_ADDRESS) →
       env.getAllowance env.mktTokenAddress (txFrom.getD NULL_ADDRESS)
          signedOrder.feeRecipient < signedOrder.takerFee →
        (tradeOrderAsync env signedOrder fillQty txFrom).1 =
          .error .InsufficientAllowanceForTransfer)) := by
  constructor
  · intro env o orderHash
    refine ⟨?_, ?_, ?_, ?_⟩
    · intro hallow
      unfold RemainingFillableCalculator.computeRemainingMakerFillable
        RemainingFillableCalculator.hasMakerSufficientFundsForFee
        RemainingFillableCalculator.getAvailableFeeFunds
      rw [if_pos (Or.inl ⟨rfl, hallow⟩)]
    · intro hguard hbal
      unfold RemainingFillableCalculator.computeRemainingMakerFillable
        RemainingFillableCalculator.hasMakerSufficientFundsForFee
        RemainingFillableCalculator.getAvailableFeeFunds
      rw [if_neg hguard]
      simp [not_le.mpr hbal]
    · intro hguard hbal htNull htallow
      unfold RemainingFillableCalculator.computeRemainingTakerFillable
        RemainingFillableCalculator.hasTakerSufficientFundsForFee
        RemainingFillableCalculator.getAvailableFeeFunds
      rw [RemainingFillableCalculator.computeRemainingMakerFillable_eval env o
        orderHash hguard hbal, if_pos (Or.inr ⟨rfl, htallow⟩)]
      simp [htNull]
    · intro hguard hbal htNull htguard htbal
      unfold RemainingFillableCalculator.computeRemainingTakerFillable
        RemainingFillableCalculator.hasTakerSufficientFundsForFee
        RemainingFillableCalculator.getAvailableFeeFunds
      rw [RemainingFillableCalculator.computeRemainingMakerFillable_eval env o
        orderHash hguard hbal, if_neg htguard]
      simp [htNull, not_le.mpr htbal]
  · intro env signedOrder fillQty txFrom h1 h2 h3 h4 h5 h6 h7m h7t
    refine ⟨?_, ?_, ?_, ?_⟩
    · intro hbal
      unfold tradeOrderAsync
      simp [h1, h2, h3, h4, h5, h6, h7m, h7t, hbal]
    · intro hbal hallow
      unfold tradeOrderAsync
      simp [h1, h2, h3, h4, h5, h6, h7m, h7t, not_lt.mpr hbal, hallow]
    · intro hbalm hallowm htbal
      unfold tradeOrderAsync
      simp [h1, h2, h3, h4, h5, h6, h7m, h7t, not_lt.mpr hbalm,
        not_lt.mpr hallowm, htbal]
    · intro hbalm hallowm htbal htallow
      unfold tradeOrderAsync
      simp [h1, h2, h3, h4, h5, h6, h7m, h7t, not_lt.mpr hbalm,
        not_lt.mpr hallowm, not_lt.mpr htbal, htallow]

/-- Witness for C5 (amended) at concrete inputs.  Calculator, maker side:
allowance 0 < fee 100 (balance also 0) gives the allowance error; allowance
100 with balance 0 gives the balance error.  Calculator, taker side (maker
fee 0, taker fee 100): taker allowance 0 gives the allowance error even with
balance 0; taker allowance 100 with balance 0 gives the balance error.
Pipeline: the same configurations reject with the balance error first, for
the maker and — once the maker's funds suffice — for the taker. -/
theorem feeFund_check_order_witness :
    (RemainingFillableCalculator.computeRemainingMakerFillable (calcEnvFee 0 0)
        (feeOrder 100) "0xhash").1 = .error .InsufficientAllowanceForTransfer ∧
    (RemainingFillableCalculator.computeRemainingMakerFillable (calcEnvFee 100 0)
        (feeOrder 100) "0xhash").1 = .error .InsufficientBalanceForTransfer ∧
    (RemainingFillableCalculator.computeRemainingTakerFillable (calcEnvFee 0 0)
        (takerOrder 0 100) "0xhash").1 = .error .InsufficientAllowanceForTransfer ∧
    (RemainingFillableCalculator.computeRemainingTakerFillable (calcEnvFee 100 0)
        (takerOrder 0 100) "0xhash").1 = .error .InsufficientBalanceForTransfer ∧
    (tradeOrderAsync (tradeEnvA 0 0 1000) (feeOrder 100) 10 (some "0xtaker")).1 =
      .error .InsufficientBalanceForTransfer ∧
    (tradeOrderAsync (tradeEnvA 200 0 1000) (feeOrder 100) 10 (some "0xtaker")).1 =
      .error .InsufficientAllowanceForTransfer ∧
    (tradeOrderAsync (tradeEnvA 50 50 1000) (takerOrder 0 100) 10
        (some "0xtaker")).1 = .error .InsufficientBalanceForTransfer ∧
    (tradeOrderAsync (tradeEnvA 200 50 1000) (takerOrder 0 100) 10
        (some "0xtaker")).1 = .error .InsufficientAllowanceForTransfer := by
  refine ⟨?_, ?_, ?_, ?_, ?_, ?_, ?_, ?_⟩
  · exact (feeFund_check_order.1 (calcEnvFee 0 0) (feeOrder 100) "0xhash").1
      (by norm_num [calcEnvFee, feeOrder])
  · exact (feeFund_check_order.1 (calcEnvFee 100 0) (feeOrder 100) "0xhash").2.1
      (by norm_num [calcEnvFee, feeOrder, NULL_ADDRESS])
      (by norm_num [calcEnvFee, feeOrder])
  · exact (feeFund_check_order.1 (calcEnvFee 0 0) (takerOrder 0 100) "0xhash").2.2.1
      (by decide)
      (by norm_num [calcEnvFee, takerOrder])
      (by simp [takerOrder, NULL_ADDRESS])
      (by norm_num [calcEnvFee, takerOrder])
  · exact (feeFund_check_order.1 (calcEnvFee 100 0) (takerOrder 0 100) "0xhash").2.2.2
      (by decide)
      (by norm_num [calcEnvFee, takerOrder])
      (by simp [takerOrder, NULL_ADDRESS])
      (by decide)
      (by norm_num [calcEnvFee, takerOrder])
  · exact ((feeFund_check_order.2 (tradeEnvA 0 0 1000) (feeOrder 100) 10
      (some "0xtaker") rfl (by simp [feeOrder, NULL_ADDRESS])
      (by norm_num [tradeEnvA, feeOrder]) (by norm_num [feeOrder]) rfl rfl rfl rfl).1
      (by norm_num [tradeEnvA, feeOrder]))
  · exact ((feeFund_check_order.2 (tradeEnvA 200 0 1000) (feeOrder 100) 10
      (some "0xtaker") rfl (by simp [feeOrder, NULL_ADDRESS])
      (by norm_num [tradeEnvA, feeOrder]) (by norm_num [feeOrder]) rfl rfl rfl rfl).2.1
      (by norm_num [tradeEnvA, feeOrder]) (by norm_num [tradeEnvA, feeOrder]))
  · exact ((feeFund_check_order.2 (tradeEnvA 50 50 1000) (takerOrder 0 100) 10
      (some "0xtaker") rfl (by simp [takerOrder, NULL_ADDRESS])
      (by norm_num [tradeEnvA, takerOrder]) (by norm_num [takerOrder])
      rfl rfl rfl rfl).2.2.1
      (by norm_num [tradeEnvA, takerOrder]) (by norm_num [tradeEnvA, takerOrder])
      (by norm_num [tradeEnvA, takerOrder]))
  · exact ((feeFund_check_order.2 (tradeEnvA 200 50 1000) (takerOrder 0 100) 10
      (some "0xtaker") rfl (by simp [takerOrder, NULL_ADDRESS])
      (by norm_num [tradeEnvA, takerOrder]) (by norm_num [takerOrder])
      rfl rfl rfl rfl).2.2.2
      (by norm_num [tradeEnvA, takerOrder]) (by norm_num [tradeEnvA, takerOrder])
      (by norm_num [tradeEnvA, takerOrder]) (by norm_num [tradeEnvA, takerOrder]))

/-- JavaScript strings of the contract-name utilities, modelled as lists of
character code points. -/
abbrev JSStr := List ℕ

/-- Code point of the underscore separator. -/
def underscoreCode : ℕ := 95

/-- One character of JavaScript `toUpperCase` (ASCII letters). -/
def jsCharToUpper (c : ℕ) : ℕ := if 97 ≤ c ∧ c ≤ 122 then c - 32 else c

/-- JavaScript `String.prototype.toUpperCase`. -/
def jsToUpper (s : JSStr) : JSStr := s.map jsCharToUpper

/-- Accumulator loop of JavaScript `String.prototype.split` with a
single-character separator. -/
def jsSplitAux (sep : ℕ) : JSStr → JSStr → List JSStr
  | [], acc => [acc.reverse]
  | c :: cs, acc =>
    if c = sep then acc.reverse :: jsSplitAux sep cs []
    else jsSplitAux sep cs (c :: acc)

/-- JavaScript `String.prototype.split` with a single-character separator. -/
def jsSplit (sep : ℕ) (s : JSStr) : List JSStr := jsSplitAux sep s []

/-- bignumber.js `toString` of a natural number: its decimal digit
characters. -/
def bigToString (n : ℕ) : JSStr :=
  if n = 0 then [48] else (Nat.digits 10 n).reverse.map (fun d => d + 48)

/-- bignumber.js constructor on a string, restricted to the unsigned decimal
forms the contract-name parser meets: `none` models the `NaN` produced from a
malformed numeral (the constructor does not throw). -/
def parseBigNumber (s : JSStr) : Option ℕ :=
  if s = [] ∨ s.any (fun c => !(48 ≤ c ∧ c ≤ 57 : Bool)) then none
  else some (Nat.ofDigits 10 ((s.map (fun c => c - 48)).reverse))

/-- Result record of `Utils.parseStandardizedContractName`
(`ParsedContractName` of src/types).  `expirationTimeStamp` is `none` when
the numeral field parsed to `NaN`. -/
structure ParsedContractName where
  referenceAsset : JSStr
  collateralToken : JSStr
  dataProvider : JSStr
  expirationTimeStamp : Option ℕ
  userText : JSStr
deriving DecidableEq, Repr

/-- Embedding of `Utils.createStandardizedContractName` (src/src/lib/Utils.ts,
lines 132-151): uppercases the text fields and joins them with the decimal
expiration using underscores. -/
def createStandardizedContractName (referenceAssetName collateralTokenSymbol
    dataProvider : JSStr) (expiration : ℕ) (userText : JSStr) : JSStr :=
  jsToUpper referenceAssetName ++ underscoreCode ::
    (jsToUpper collateralTokenSymbol ++ underscoreCode ::
      (jsToUpper dataProvider ++ underscoreCode ::
        (bigToString expiration ++ underscoreCode :: jsToUpper userText)))

/-- Embedding of `Utils.parseStandardizedContractName` (src/src/lib/Utils.ts,
lines 157-177): split on underscores, require at least four parts, re-parse
the expiration numeral, and take the optional fifth part as user text.  The
source's catch branch is unreachable because the bignumber.js constructor
yields `NaN` instead of throwing. -/
def parseStandardizedContractName (contractName : JSStr) :
    Option ParsedContractName :=
  let splitName := jsSplit underscoreCode contractName
  if splitName.length < 4 then none
  else some ⟨splitName.getD 0 [], splitName.getD 1 [], splitName.getD 2 [],
    parseBigNumber (splitName.getD 3 []),
    if 4 < splitName.length then splitName.getD 4 [] else []⟩

/-- Splitting a separator-free string yields the single accumulated piece. -/
theorem jsSplitAux_no_sep (sep : ℕ) (a acc : JSStr) (h : sep ∉ a) :
    jsSplitAux sep a acc = [acc.reverse ++ a] := by
  induction a generalizing acc with
  | nil => simp [jsSplitAux]
  | cons c cs ih =>
    have hc : ¬ (c = sep) := fun hcs => h (hcs ▸ List.mem_cons_self c cs)
    rw [jsSplitAux, if_neg hc, ih (c :: acc) (fun hm => h (List.mem_cons_of_mem _ hm))]
    simp

/-- Splitting consumes a separator-free prefix up to the first separator. -/
theorem jsSplitAux_append_sep (sep : ℕ) (a rest acc : JSStr) (h : sep ∉ a) :
    jsSplitAux sep (a ++ sep :: rest) acc =
      (acc.reverse ++ a) :: jsSplit sep rest := by
  induction a generalizing acc with
  | nil => simp [jsSplitAux, jsSplit]
  | cons c cs ih =>
    have hc : ¬ (c = sep) := fun hcs => h (hcs ▸ List.mem_cons_self c cs)
    rw [List.cons_append, jsSplitAux, if_neg hc,
      ih (c :: acc) (fun hm => h (List.mem_cons_of_mem _ hm))]
    simp

/-- Uppercasing maps no character to the underscore. -/
theorem underscore_not_mem_jsToUpper (s : JSStr) (h : underscoreCode ∉ s) :
    underscoreCode ∉ jsToUpper s := by
  intro hmem
  rcases List.mem_map.mp hmem with ⟨c, hc, hup⟩
  apply h
  have : c = underscoreCode := by
    unfold jsCharToUpper at hup
    unfold underscoreCode at *
    split at hup <;> omega
  exact this ▸ hc

/-- Decimal numerals contain no underscore. -/
theorem underscore_not_mem_bigToString (n : ℕ) :
    underscoreCode ∉ bigToString n := by
  intro hmem
  unfold bigToString at hmem
  split at hmem
  · simp [underscoreCode] at hmem
  · rcases List.mem_map.mp hmem with ⟨d, hd, hval⟩
    have : d < 10 := Nat.digits_lt_base (by norm_num) (List.mem_reverse.mp hd)
    unfold underscoreCode at hval
    omega

/-- Printing a natural number in decimal and re-parsing it recovers the
number. -/
theorem parseBigNumber_bigToString (n : ℕ) :
    parseBigNumber (bigToString n) = some n := by
  by_cases h0 : n = 0
  · subst h0; rfl
  · unfold bigToString
    rw [if_neg h0]
    have hdigit : ∀ d ∈ Nat.digits 10 n, d < 10 :=
      fun d hd => Nat.digits_lt_base (by norm_num) hd
    have hne : Nat.digits 10 n ≠ [] := Nat.digits_ne_nil_iff_ne_zero.mpr h0
    unfold parseBigNumber
    rw [if_neg ?hcond]
    case hcond =>
      push_neg
      constructor
      · intro heq
        rw [List.map_eq_nil_iff, List.reverse_eq_nil_iff] at heq
        exact hne heq
      · intro hany
        rw [List.any_eq_true] at hany
        rcases hany with ⟨c, hc, hpc⟩
        rcases List.mem_map.mp hc with ⟨d, hd, rfl⟩
        have hlt := hdigit d (List.mem_reverse.mp hd)
        simp only [Bool.not_eq_true'] at hpc
        rw [decide_eq_false_iff_not] at hpc
        exact hpc ⟨by omega, by omega⟩
    · congr 1
      have hmaps : ((Nat.digits 10 n).reverse.map (fun d => d + 48)).map
          (fun c => c - 48) = (Nat.digits 10 n).reverse := by
        rw [List.map_map]
        exact List.map_congr_left (fun d _ => by simp) |>.trans (List.map_id _)
      rw [hmaps, List.reverse_reverse, Nat.ofDigits_digits]

/-- C9: parsing a freshly created standardized contract name recovers the
uppercased reference asset, collateral token symbol, data provider and user
text, and an expiration numerically equal to the input, whenever the four
text fields contain no underscore. -/
theorem parseStandardizedContractName_roundtrip (referenceAssetName
    collateralTokenSymbol dataProvider : JSStr) (expiration : ℕ) (userText : JSStr)
    (href : underscoreCode ∉ referenceAssetName)
    (hsym : underscoreCode ∉ collateralTokenSymbol)
    (hprov : underscoreCode ∉ dataProvider)
    (htxt : underscoreCode ∉ userText) :
    parseStandardizedContractName (createStandardizedContractName
        referenceAssetName collateralTokenSymbol dataProvider expiration userText) =
      some ⟨jsToUpper referenceAssetName, jsToUpper collateralTokenSymbol,
        jsToUpper dataProvider, some expiration, jsToUpper userText⟩ := by
  have h1 := underscore_not_mem_jsToUpper referenceAssetName href
  have h2 := underscore_not_mem_jsToUpper collateralTokenSymbol hsym
  have h3 := underscore_not_mem_jsToUpper dataProvider hprov
  have h4 := underscore_not_mem_bigToString expiration
  have h5 := underscore_not_mem_jsToUpper userText htxt
  have hsplit : jsSplit underscoreCode (createStandardizedContractName
      referenceAssetName collateralTokenSymbol dataProvider expiration userText) =
      [jsToUpper referenceAssetName, jsToUpper collateralTokenSymbol,
       jsToUpper dataProvider, bigToString expiration, jsToUpper userText] := by
    unfold createStandardizedContractName jsSplit
    rw [jsSplitAux_append_sep _ _ _ _ h1, jsSplit,
      jsSplitAux_append_sep _ _ _ _ h2, jsSplit,
      jsSplitAux_append_sep _ _ _ _ h3, jsSplit,
      jsSplitAux_append_sep _ _ _ _ h4, jsSplit,
      jsSplitAux_no_sep _ _ _ h5]
    simp
  unfold parseStandardizedContractName
  rw [hsplit]
  norm_num [List.getD, parseBigNumber_bigToString]

/-- Witness for C9: reference asset "eth", symbol "a", provider "b",
expiration 42, user text "c" (code points). -/
theorem parseStandardizedContractName_roundtrip_witness :
    parseStandardizedContractName (createStandardizedContractName
        [101, 116, 104] [97] [98] 42 [99]) =
      some ⟨jsToUpper [101, 116, 104], jsToUpper [97], jsToUpper [98], some 42,
        jsToUpper [99]⟩ :=
  parseStandardizedContractName_roundtrip [101, 116, 104] [97] [98] 42 [99]
    (by decide) (by decide) (by decide) (by decide)

end MarketJS
